/-
Verification of the botoform environment builder (builders.py) and the
enriched instance wrapper (evpc/instance.py).

The Python code is shallowly embedded: each builder method becomes a Lean
function over explicit inputs (config entries, a state-view lookup passed as
a function, association lists for dicts).  Provider mutations are recorded as
values of explicit call/outcome types rather than performed.  Python `sorted`
(a stable sort by key) is modelled with `List.insertionSort`, which inserts an
element before the first element it is `≤` to and is therefore stable.
Python 2 `/` on positive ints is floor division, modelled by `Nat` division.
Fallible Python operations (dict lookup `KeyError`, list `pop` on empty,
attribute access on `None`, out-of-range indexing) are modelled with
`Except String`.
-/
import Mathlib

namespace Botoform

/-- Log levels accepted by `Log.emit` in the source. -/
inductive LogLevel where
  | info
  | warning
  | error
  | debug
deriving DecidableEq, Repr

/-- One emitted log message (text plus level). -/
structure LogMsg where
  text : String
  level : LogLevel
deriving DecidableEq, Repr

/-! ## Fleet scaling (`EnvironmentBuilder.instance_role`, builders.py lines 219-287)

A subnet is modelled by its Name tag and the number of instances currently in
it (`collection_len(sn.instances)` in the source). -/

/-- A subnet as seen by `instance_role`: its Name tag and its current
instance count. -/
structure Subnet where
  name : String
  instanceCount : Nat
deriving DecidableEq, Repr

/-- The key order used by `sorted(subnets, key=lambda sn: collection_len(sn.instances))`. -/
def subnetLE (a b : Subnet) : Prop := a.instanceCount ≤ b.instanceCount

instance : DecidableRel subnetLE := fun a b => Nat.decLe a.instanceCount b.instanceCount

instance : IsTotal Subnet subnetLE := ⟨fun a b => Nat.le_total a.instanceCount b.instanceCount⟩

instance : IsTrans Subnet subnetLE := ⟨fun _ _ _ => Nat.le_trans⟩

/-- Python `sorted(subnets, key=lambda sn: collection_len(sn.instances))`:
a stable sort ascending by current instance count. -/
def sortSubnets (l : List Subnet) : List Subnet := List.insertionSort subnetLE l

/-- Outcome of the `instance_role` step for one role. -/
inductive RoleOutcome where
  | skippedNoSubnets
  | noScaleNeeded
  | launches (batches : List (Subnet × Int))
deriving DecidableEq, Repr

/-- The per-subnet launch loop of `instance_role` (builders.py lines 263-281):
`count = needed_per_subnet - collection_len(subnet.instances)`, and while
`needed_remainder != 0` it is decremented and `count` incremented by one.
The count is an `Int` because the Python subtraction can go negative. -/
def launchCounts (per : Nat) : Nat → List Subnet → List (Subnet × Int)
  | _, [] => []
  | 0, sn :: rest =>
      (sn, (per : Int) - (sn.instanceCount : Int)) :: launchCounts per 0 rest
  | rem + 1, sn :: rest =>
      (sn, (per : Int) - (sn.instanceCount : Int) + 1) :: launchCounts per rem rest

/-- The scaling core of `instance_role` (builders.py lines 239-281): sort the
subnets ascending by instance count, compute the existing total, exit early
when `existing_count >= desired_count`, otherwise launch
`needed_per_subnet = needed_count / len(subnets)` per subnet (floor division)
with the remainder `needed_count % len(subnets)` handled in the loop. -/
def fleetScale (desiredCount : Nat) (subnets : List Subnet) : RoleOutcome :=
  let sorted := sortSubnets subnets
  let existingCount := (sorted.map Subnet.instanceCount).sum
  if desiredCount ≤ existingCount then
    .noScaleNeeded
  else
    let neededCount := desiredCount - existingCount
    .launches (launchCounts (neededCount / sorted.length) (neededCount % sorted.length) sorted)

/-- Python `map(self.evpc.get_subnet, names)` followed by use of every
element: `some` of the list when every lookup succeeded, `none` as soon as
one subnet resolved to Python `None` (whose `.instances` access raises). -/
def collectSome {α : Type} : List (Option α) → Option (List α)
  | [] => some []
  | none :: _ => none
  | some a :: rest => (collectSome rest).map (a :: ·)

/-- The warning emitted when a role resolves no subnets. -/
def noSubnetsWarning (roleName : String) : LogMsg :=
  ⟨"no subnets found for role: " ++ roleName, .warning⟩

/-- The per-batch launch messages emitted inside the loop. -/
def launchLogs (roleName : String) : RoleOutcome → List LogMsg
  | .launches batches =>
      batches.map fun b =>
        ⟨toString b.2 ++ " instances of role " ++ roleName ++ " launching into " ++ b.1.name,
         .info⟩
  | _ => []

/-- Embedding of `EnvironmentBuilder.instance_role` (builders.py lines 219-287).
`amis` is the two-level ami dict (`self.amis[role_data[ami]][region]`,
each missing key a `KeyError`); `getSubnet` is `self.evpc.get_subnet`;
`subnetNames` is `role_data.get(subnets, [])`.  The resolved subnet list is
length-checked first (a warning and early return when empty); sorting a list
containing Python `None` raises, modelled by `collectSome` failing.
Launch batches record the subnet and the `MinCount`/`MaxCount` passed to
`create_instances`; constant pass-through arguments (ami id, instance type,
key name, security-group ids) are not recorded. -/
def instance_role (amis : List (String × List (String × String)))
    (regionName : String) (getSubnet : String → Option Subnet)
    (roleName : String) (amiKey : String) (subnetNames : List String)
    (desiredCount : Nat) : Except String (List LogMsg × RoleOutcome) :=
  match amis.lookup amiKey with
  | none => .error "KeyError: ami"
  | some regionMap =>
    match regionMap.lookup regionName with
    | none => .error "KeyError: region"
    | some _ami =>
      let resolved := subnetNames.map getSubnet
      if resolved.length = 0 then
        .ok ([noSubnetsWarning roleName], .skippedNoSubnets)
      else
        match collectSome resolved with
        | none => .error "AttributeError: NoneType has no attribute instances"
        | some subnets =>
          let outcome := fleetScale desiredCount subnets
          .ok (launchLogs roleName outcome, outcome)

/-- The launch batches of an outcome (empty for the early returns). -/
def outcomeBatches : RoleOutcome → List (Subnet × Int)
  | .launches batches => batches
  | _ => []

/-- The launch batches of an `instance_role` result. -/
def roleBatches : Except String (List LogMsg × RoleOutcome) → List (Subnet × Int)
  | .ok (_, outcome) => outcomeBatches outcome
  | .error _ => []

/-! ## Security group rules (`EnvironmentBuilder.security_group_rules`,
builders.py lines 183-212) -/

/-- An existing security group as returned by `evpc.get_security_group`:
only its provider id is used here. -/
structure SecurityGroup where
  id : String
deriving DecidableEq, Repr

/-- A config rule tuple `(source, protocol, port_spec)`:
`rule[0]`, `rule[1]`, `rule[2]` in the source. -/
structure Rule where
  source : String
  protocol : String
  portSpec : String
deriving DecidableEq, Repr

/-- The permission dict built for one rule.  `IpProtocol`, `FromPort` and
`ToPort` are always set; exactly one of `IpRanges` (a `CidrIp` entry) and
`UserIdGroupPairs` (a `GroupId` entry) is added. -/
structure Permission where
  ipProtocol : String
  fromPort : Int
  toPort : Int
  ipRanges : List String
  userIdGroupPairs : List String
deriving DecidableEq, Repr

/-- The body of the inner rule loop (builders.py lines 189-205).
`lookup` is `evpc.get_security_group`; `portRange` is the external
`get_port_range(rule[2], protocol)` helper, passed in abstractly. -/
def resolveRule (lookup : String → Option SecurityGroup)
    (portRange : String → String → Int × Int) (rule : Rule) : Permission :=
  let ports := portRange rule.portSpec rule.protocol
  match lookup rule.source with
  | none =>
      { ipProtocol := rule.protocol, fromPort := ports.1, toPort := ports.2,
        ipRanges := [rule.source], userIdGroupPairs := [] }
  | some srcSg =>
      { ipProtocol := rule.protocol, fromPort := ports.1, toPort := ports.2,
        ipRanges := [], userIdGroupPairs := [srcSg.id] }

/-- The `permissions` list accumulated over the rule loop before the single
`authorize_ingress` call. -/
def resolvePermissions (lookup : String → Option SecurityGroup)
    (portRange : String → String → Int × Int) : List Rule → List Permission
  | [] => []
  | rule :: rest =>
      resolveRule lookup portRange rule :: resolvePermissions lookup portRange rest

/-- A provider mutation issued by `security_group_rules`: the one
`sg.authorize_ingress(IpPermissions=permissions)` call per group, recorded
with the target group id and the whole permission batch. -/
inductive ProviderCall where
  | authorizeIngress (groupId : String) (permissions : List Permission)
deriving DecidableEq, Repr

/-- Embedding of `EnvironmentBuilder.security_group_rules` (builders.py lines 183-212):
for each config entry `(sg_name, rules)` the group is looked up (an
unresolved group makes the subsequent `sg.authorize_ingress` raise on
`None`), all rules are resolved into `permissions`, and one
`authorize_ingress` call is issued after the loop carrying that batch. -/
def security_group_rules (lookup : String → Option SecurityGroup)
    (portRange : String → String → Int × Int) :
    List (String × List Rule) → Except String (List ProviderCall)
  | [] => .ok []
  | (sgName, rules) :: rest =>
    match lookup sgName with
    | none => .error "AttributeError: NoneType has no attribute authorize_ingress"
    | some sg =>
      match security_group_rules lookup portRange rest with
      | .error e => .error e
      | .ok calls =>
          .ok (.authorizeIngress sg.id (resolvePermissions lookup portRange rules) :: calls)

/-! ## Route tables and subnets (`EnvironmentBuilder.route_tables`,
builders.py lines 101-113, and `EnvironmentBuilder.subnets`, lines 115-146) -/

/-- Config data for one route table; `data.get(main, False) == True`. -/
structure RouteTableData where
  main : Bool
deriving DecidableEq, Repr

/-- A resource-affecting call issued by the route-table or subnet steps. -/
inductive BuildCall where
  | createRouteTable
  | getMainRouteTable
  | createSubnet (cidr : String) (azName : String)
  | updateTags (name : String)
deriving DecidableEq, Repr

/-- Embedding of `EnvironmentBuilder.route_tables`: for each `(name, data)` config entry,
`get_route_table(longname)` is consulted first; only when it returns `None`
is a table created (or the main table adopted) and tagged. -/
def route_tables (getRouteTable : String → Option Unit) (vpcName : String) :
    List (String × RouteTableData) → List BuildCall
  | [] => []
  | (name, data) :: rest =>
    let longname := vpcName ++ "-" ++ name
    (match getRouteTable longname with
     | some _ => []
     | none =>
       [(if data.main then BuildCall.getMainRouteTable else BuildCall.createRouteTable),
        BuildCall.updateTags longname]) ++ route_tables getRouteTable vpcName rest

/-- Config data for one subnet entry: `size`, optional
`availability_zone` letter, optional `description`. -/
structure SubnetData where
  size : Nat
  availabilityZone : Option String
  description : String
deriving DecidableEq, Repr

/-- Python list indexing `l[i]` with single negative-index wraparound;
out of range raises `IndexError`. -/
def pyIndex (l : List String) (i : Int) : Except String String :=
  let j : Int := if i < 0 then i + l.length else i
  if h : 0 ≤ j ∧ j < l.length then
    .ok (l.get ⟨j.toNat, by
      rcases h with ⟨h0, hl⟩
      omega⟩)
  else .error "IndexError: azones"

/-- The availability-zone choice (builders.py lines 128-133): an explicit
zone letter is appended to the region name; otherwise
`int(name.split(dash)[-1]) - 1` indexes into `azones` (Python `int()` on a
non-numeric suffix raises, modelled by `String.toNat?`). -/
def azChoice (regionName : String) (azones : List String) (name : String)
    (azLetter : Option String) : Except String String :=
  match azLetter with
  | some letter => .ok (regionName ++ letter)
  | none =>
    match ((name.splitOn "-").getLastD "").toNat? with
    | none => .error "ValueError: int"
    | some k => pyIndex azones ((k : Int) - 1)

/-- Embedding of `subnets.setdefault(size, []).append(cidr)` over the zipped
`(size, cidr)` pairs: an association list from size to its cidrs in order. -/
def buildBuckets : List (Nat × String) → List (Nat × List String) → List (Nat × List String)
  | [], acc => acc
  | (size, cidr) :: rest, acc =>
    buildBuckets rest
      (if acc.any (fun e => e.1 == size) then
        acc.map (fun e => if e.1 == size then (e.1, e.2 ++ [cidr]) else e)
      else acc ++ [(size, [cidr])])

/-- Embedding of `subnets[size].pop()`: a `KeyError` when the size has no bucket,
an `IndexError` when its bucket is exhausted, otherwise the last cidr is
removed and returned. -/
def popBucket (buckets : List (Nat × List String)) (size : Nat) :
    Except String (String × List (Nat × List String)) :=
  match buckets.lookup size with
  | none => .error "KeyError: size"
  | some cidrs =>
    match cidrs.getLast? with
    | none => .error "IndexError: pop from empty list"
    | some cidr =>
      .ok (cidr, buckets.map (fun e => if e.1 == size then (e.1, e.2.dropLast) else e))

/-- The creation loop of `EnvironmentBuilder.subnets` (builders.py lines
126-146): for every config entry, unconditionally compute the zone, pop a
cidr from the size bucket, call `create_subnet` and tag it.  No lookup of
existing subnets is performed. -/
def subnetsLoop (vpcName regionName : String) (azones : List String)
    (buckets : List (Nat × List String)) :
    List (String × SubnetData) → Except String (List BuildCall)
  | [] => .ok []
  | (name, sn) :: rest =>
    let longname := vpcName ++ "-" ++ name
    match azChoice regionName azones name sn.availabilityZone with
    | .error e => .error e
    | .ok azName =>
      match popBucket buckets sn.size with
      | .error e => .error e
      | .ok (cidr, buckets') =>
        match subnetsLoop vpcName regionName azones buckets' rest with
        | .error e => .error e
        | .ok calls => .ok (BuildCall.createSubnet cidr azName :: BuildCall.updateTags longname :: calls)

/-- Embedding of `EnvironmentBuilder.subnets` (builders.py lines 115-146): the declared
sizes are sorted ascending, the external `allocate(cidr_block, sizes)` is
called (passed in abstractly as `allocateF`), sizes are zipped with the
returned cidrs into per-size buckets, and then every config entry gets a
subnet created.  The state view is never consulted. -/
def subnets_step (allocateF : String → List Nat → List String)
    (cidrBlock vpcName regionName : String) (azones : List String)
    (cfg : List (String × SubnetData)) : Except String (List BuildCall) :=
  let sizes := List.insertionSort (· ≤ ·) (cfg.map (fun e => e.2.size))
  let cidrs := allocateF cidrBlock sizes
  let buckets := buildBuckets (sizes.zip cidrs) []
  subnetsLoop vpcName regionName azones buckets cfg

/-- Number of resource creations among a list of build calls
(`create_route_table` / `create_subnet`; adopting the main route table and
tagging are not creations). -/
def creationCount (calls : List BuildCall) : Nat :=
  calls.countP (fun c =>
    match c with
    | BuildCall.createRouteTable => true
    | BuildCall.createSubnet _ _ => true
    | _ => false)

/-! ## Top-level build (`EnvironmentBuilder.apply_all` and `_apply_all`,
builders.py lines 33-73)

A step of `_apply_all` (route tables, subnets, associations, endpoints,
security groups, instance roles, rules, the wait loop) is modelled by the
logs it emits and its outcome: normal return or a raised exception. -/

/-- Logs emitted by one build step together with its outcome. -/
structure StepResult (E : Type) where
  logs : List LogMsg
  outcome : Except E Unit

/-- Sequential execution of the ordered build steps: each step runs only if
every earlier one returned normally; the first raised exception propagates
and later steps never run. -/
def runSteps {E : Type} : List (StepResult E) → StepResult E
  | [] => ⟨[], .ok ()⟩
  | s :: rest =>
    match s.outcome with
    | .error e => ⟨s.logs, .error e⟩
    | .ok () =>
      let r := runSteps rest
      ⟨s.logs ++ r.logs, r.outcome⟩

/-- The message emitted just before `evpc.lock_instances()` inside the
final `try` block. -/
def lockMsg : LogMsg := ⟨"locking instances to prevent termination", .info⟩

/-- The warning emitted by the bare `except` around `lock_instances`. -/
def lockWarn : LogMsg := ⟨"could not lock instances, continuing...", .warning⟩

/-- Embedding of `EnvironmentBuilder._apply_all` (builders.py lines 45-73): run the
ordered steps; if they all return normally, attempt instance locking inside
a `try` whose bare `except` logs a warning and continues, so a locking
failure never fails the run. -/
def underscoreApplyAll {E : Type} (steps : List (StepResult E))
    (lock : StepResult E) : StepResult E :=
  let r := runSteps steps
  match r.outcome with
  | .error e => ⟨r.logs, .error e⟩
  | .ok () =>
    match lock.outcome with
    | .ok () => ⟨r.logs ++ [lockMsg] ++ lock.logs, .ok ()⟩
    | .error _ => ⟨r.logs ++ [lockMsg] ++ lock.logs ++ [lockWarn], .ok ()⟩

/-- The four diagnostic messages logged by `apply_all` before re-raising:
two error lines, the traceback at debug level, and the teardown notice
(teardown itself is commented out in the source). -/
def failureLogs {E : Type} (describe : E → String) (tb : String) (e : E) : List LogMsg :=
  [⟨"Botoform failed to build environment!", .error⟩,
   ⟨"Failure reason: " ++ describe e, .error⟩,
   ⟨tb, .debug⟩,
   ⟨"Tearing down failed environment!", .error⟩]

/-- Embedding of `EnvironmentBuilder.apply_all` (builders.py lines 33-43): call
`_apply_all`; on any exception, emit the diagnostics and re-raise the same
exception via a bare `raise`. -/
def apply_all {E : Type} (describe : E → String) (tb : String)
    (run : StepResult E) : StepResult E :=
  match run.outcome with
  | .ok () => run
  | .error e => ⟨run.logs ++ failureLogs describe tb e, .error e⟩

/-! ## EnrichedInstance hostname parsing
(`evpc/instance.py` lines 36-59) -/

/-- The regex used by the `shortname` property. -/
def shortnamePattern : String := ".*?-(.*)$"

/-- The regex used by the `role` property. -/
def rolePattern : String := ".*?-(.*?)\\d+$"

/-- The message of the exception raised on a non-matching Name tag. -/
def invalidNameMsg (h : String) : String :=
  "Invalid Name=" ++ h ++ " tag, custid-<role>NN"

/-- Embedding of `EnrichedInstance._regex_hostname` (instance.py lines 52-59):
`hostname` is the Name tag of the instance (`None` when the tag is absent) and
`reMatch pattern h` models `re.match(pattern, h) is not None`.  When the
hostname is `None` the method returns `None`; when the regex does not match
it raises; when it matches, the method body ends without a `return`
statement, so Python returns `None` and the match object is discarded. -/
def regexHostname (reMatch : String → String → Bool) (hostname : Option String)
    (pattern : String) : Except String (Option String) :=
  match hostname with
  | none => .ok none
  | some h =>
    if reMatch pattern h then .ok none
    else .error (invalidNameMsg h)

/-- The `shortname` property (instance.py lines 40-43). -/
def shortname (reMatch : String → String → Bool) (hostname : Option String) :
    Except String (Option String) :=
  regexHostname reMatch hostname shortnamePattern

/-- The `role` property (instance.py lines 45-50). -/
def role (reMatch : String → String → Bool) (hostname : Option String) :
    Except String (Option String) :=
  regexHostname reMatch hostname rolePattern

/-! ## Lemmas about the stable sort and the launch loop -/

/-- Sorting with `sortSubnets` permutes the input. -/
lemma sortSubnets_perm (l : List Subnet) : List.Perm (sortSubnets l) l :=
  List.perm_insertionSort subnetLE l

/-- Sorting with `sortSubnets` orders ascending by current instance count. -/
lemma sortSubnets_sorted (l : List Subnet) : List.Sorted subnetLE (sortSubnets l) :=
  List.sorted_insertionSort subnetLE l

/-- Sorting with `sortSubnets` preserves length. -/
lemma sortSubnets_length (l : List Subnet) : (sortSubnets l).length = l.length :=
  List.length_insertionSort subnetLE l

/-- Sorting with `sortSubnets` preserves the total instance count. -/
lemma sortSubnets_sum (l : List Subnet) :
    ((sortSubnets l).map Subnet.instanceCount).sum = (l.map Subnet.instanceCount).sum :=
  List.Perm.sum_eq (List.Perm.map Subnet.instanceCount (sortSubnets_perm l))

/-- Inserting with `orderedInsert` preserves the subsequence of elements
with any fixed instance count: the elements skipped over are strictly
smaller, hence never of the count of the inserted element. -/
lemma filter_count_orderedInsert (k : Nat) (x : Subnet) (l : List Subnet) :
    List.filter (fun s => s.instanceCount == k) (List.orderedInsert subnetLE x l) =
      List.filter (fun s => s.instanceCount == k) (x :: l) := by
  induction l with
  | nil => rfl
  | cons b t ih =>
    by_cases hxb : subnetLE x b
    · rw [List.orderedInsert, if_pos hxb]
    · rw [List.orderedInsert, if_neg hxb]
      have hbx : b.instanceCount < x.instanceCount := Nat.lt_of_not_le hxb
      by_cases pb : b.instanceCount = k
      · have pxf : (x.instanceCount == k) = false := by
          simp only [beq_eq_false_iff_ne]
          omega
        simp [List.filter_cons, pb, pxf, ih]
      · simp [List.filter_cons, pb, ih]

/-- Stability of `sortSubnets`: for every instance count `k`, the
`k`-counted subnets appear in the sorted list in their input order. -/
lemma filter_count_sortSubnets (k : Nat) (l : List Subnet) :
    List.filter (fun s => s.instanceCount == k) (sortSubnets l) =
      List.filter (fun s => s.instanceCount == k) l := by
  induction l with
  | nil => rfl
  | cons a t ih =>
    show List.filter _ (List.orderedInsert subnetLE a (List.insertionSort subnetLE t)) = _
    rw [filter_count_orderedInsert, List.filter_cons, List.filter_cons]
    rw [show List.insertionSort subnetLE t = sortSubnets t from rfl, ih]

/-- The launch loop emits one batch per subnet. -/
lemma launchCounts_length (per : Nat) :
    ∀ (rem : Nat) (l : List Subnet), (launchCounts per rem l).length = l.length := by
  intro rem l
  induction l generalizing rem with
  | nil => cases rem <;> rfl
  | cons sn rest ih => cases rem <;> simp [launchCounts, ih]

/-- The launch loop processes the subnets in the order given. -/
lemma launchCounts_map_fst (per : Nat) :
    ∀ (rem : Nat) (l : List Subnet), (launchCounts per rem l).map Prod.fst = l := by
  intro rem l
  induction l generalizing rem with
  | nil => cases rem <;> rfl
  | cons sn rest ih => cases rem <;> simp [launchCounts, ih]

/-- The batch count at position `i` is `per - current`, plus one exactly for
the first `rem` positions. -/
lemma launchCounts_get (per : Nat) :
    ∀ (rem : Nat) (l : List Subnet) (i : Nat), i < l.length →
      (launchCounts per rem l)[i]? =
        some (l[i]?.getD ⟨"", 0⟩,
          (per : Int) - ((l[i]?.getD ⟨"", 0⟩).instanceCount : Int) +
            if i < rem then 1 else 0) := by
  intro rem l
  induction l generalizing rem with
  | nil => intro i h; exact absurd h (Nat.not_lt_zero i)
  | cons sn rest ih =>
    intro i h
    cases rem with
    | zero =>
      cases i with
      | zero => simp [launchCounts]
      | succ j =>
        have hj : j < rest.length := Nat.lt_of_succ_lt_succ h
        simp only [launchCounts, List.getElem?_cons_succ]
        rw [ih 0 j hj]
        simp
    | succ r =>
      cases i with
      | zero => simp [launchCounts]
      | succ j =>
        have hj : j < rest.length := Nat.lt_of_succ_lt_succ h
        simp only [launchCounts, List.getElem?_cons_succ]
        rw [ih r j hj]
        simp [Nat.succ_lt_succ_iff]

/-! ## Claim theorems -/

/-- C1: the claim asserts that for a non-empty subnet list with
`sum(current_count) < desired_count` the per-subnet additional counts sum
exactly to `needed = desired_count - sum(current_count)` and are never
negative.  The code subtracts the current count of each subnet from its share of
`needed` (which is already net of the existing instances), so on
`desired_count = 10` with current counts `[3, 1, 0]` (`needed = 6`) it
computes the batches `[2, 1, -1]`: they sum to `2`, not `6`, and one of
them is negative. -/
theorem claim_C1_fleetScale_bug_eval :
    fleetScale 10 [⟨"a", 3⟩, ⟨"b", 1⟩, ⟨"c", 0⟩] =
      .launches [(⟨"c", 0⟩, 2), (⟨"b", 1⟩, 1), (⟨"a", 3⟩, -1)] ∧
    ((outcomeBatches (fleetScale 10 [⟨"a", 3⟩, ⟨"b", 1⟩, ⟨"c", 0⟩])).map Prod.snd).sum = 2 ∧
    10 - (([⟨"a", 3⟩, ⟨"b", 1⟩, ⟨"c", 0⟩] : List Subnet).map Subnet.instanceCount).sum = 6 ∧
    (-1 : Int) ∈ (outcomeBatches (fleetScale 10 [⟨"a", 3⟩, ⟨"b", 1⟩, ⟨"c", 0⟩])).map Prod.snd := by
  refine ⟨rfl, rfl, rfl, ?_⟩
  decide

/-- C4: whenever the declared subnets already hold at least
`desired_count` instances in total, the scaling core of `instance_role` exits
early with no launches (and the code contains no scale-down path: the early
return is taken before any instance creation). -/
theorem claim_C4_no_action_when_satisfied (desiredCount : Nat) (subnets : List Subnet)
    (hge : desiredCount ≤ (subnets.map Subnet.instanceCount).sum) :
    fleetScale desiredCount subnets = .noScaleNeeded ∧
      outcomeBatches (fleetScale desiredCount subnets) = [] := by
  have hsum : ((sortSubnets subnets).map Subnet.instanceCount).sum =
      (subnets.map Subnet.instanceCount).sum := sortSubnets_sum subnets
  have hcond : desiredCount ≤ ((sortSubnets subnets).map Subnet.instanceCount).sum := by
    rw [hsum]; exact hge
  have heq : fleetScale desiredCount subnets = .noScaleNeeded := by
    unfold fleetScale
    rw [if_pos hcond]
  exact ⟨heq, by rw [heq]; rfl⟩

/-- Witness for C4 at the documented example: `desired = 5`, currents `[3, 3]`. -/
theorem claim_C4_witness :
    fleetScale 5 [⟨"a", 3⟩, ⟨"b", 3⟩] = .noScaleNeeded ∧
      outcomeBatches (fleetScale 5 [⟨"a", 3⟩, ⟨"b", 3⟩]) = [] :=
  claim_C4_no_action_when_satisfied 5 [⟨"a", 3⟩, ⟨"b", 3⟩] (by decide)

/-- C6: in the scaling case the subnets are processed ascending by current
instance count with ties in input order (the processed sequence is a
permutation of the input, sorted, and filters to the input order on every
count value), and position `i` receives
`needed / n - current + 1` for `i < needed % n` and `needed / n - current`
afterwards: the remainder goes one unit at a time to the first
`needed % n` subnets of the ordered sequence. -/
theorem claim_C6_order_and_remainder (desiredCount : Nat) (subnets : List Subnet)
    (hlt : (subnets.map Subnet.instanceCount).sum < desiredCount) :
    ∃ L : List (Subnet × Int),
      fleetScale desiredCount subnets = .launches L ∧
      L.length = subnets.length ∧
      List.Perm (L.map Prod.fst) subnets ∧
      List.Sorted subnetLE (L.map Prod.fst) ∧
      (∀ k : Nat,
        List.filter (fun s => s.instanceCount == k) (L.map Prod.fst) =
          List.filter (fun s => s.instanceCount == k) subnets) ∧
      (∀ i : Nat, i < L.length →
        L[i]? = some ((L.map Prod.fst)[i]?.getD ⟨"", 0⟩,
          (((desiredCount - (subnets.map Subnet.instanceCount).sum) / subnets.length : Nat) : Int) -
            (((L.map Prod.fst)[i]?.getD ⟨"", 0⟩).instanceCount : Int) +
            if i < (desiredCount - (subnets.map Subnet.instanceCount).sum) % subnets.length
            then 1 else 0)) := by
  have hsum : ((sortSubnets subnets).map Subnet.instanceCount).sum =
      (subnets.map Subnet.instanceCount).sum := sortSubnets_sum subnets
  have hcond : ¬ desiredCount ≤ ((sortSubnets subnets).map Subnet.instanceCount).sum := by
    rw [hsum]; omega
  refine ⟨launchCounts
      ((desiredCount - ((sortSubnets subnets).map Subnet.instanceCount).sum) /
        (sortSubnets subnets).length)
      ((desiredCount - ((sortSubnets subnets).map Subnet.instanceCount).sum) %
        (sortSubnets subnets).length)
      (sortSubnets subnets), ?_, ?_, ?_, ?_, ?_, ?_⟩
  · unfold fleetScale
    rw [if_neg hcond]
  · rw [launchCounts_length, sortSubnets_length]
  · rw [launchCounts_map_fst]
    exact sortSubnets_perm subnets
  · rw [launchCounts_map_fst]
    exact sortSubnets_sorted subnets
  · intro k
    rw [launchCounts_map_fst]
    exact filter_count_sortSubnets k subnets
  · intro i hi
    have hi' : i < (sortSubnets subnets).length := by
      rw [launchCounts_length] at hi
      exact hi
    rw [launchCounts_get _ _ _ _ hi', launchCounts_map_fst, hsum, sortSubnets_length]

/-- Witness for C6 at `desired = 10`, currents `[3, 1, 0]`. -/
theorem claim_C6_witness :
    ∃ L : List (Subnet × Int),
      fleetScale 10 [⟨"a", 3⟩, ⟨"b", 1⟩, ⟨"c", 0⟩] = .launches L ∧
      L.length = ([⟨"a", 3⟩, ⟨"b", 1⟩, ⟨"c", 0⟩] : List Subnet).length ∧
      List.Perm (L.map Prod.fst) [⟨"a", 3⟩, ⟨"b", 1⟩, ⟨"c", 0⟩] ∧
      List.Sorted subnetLE (L.map Prod.fst) ∧
      (∀ k : Nat,
        List.filter (fun s => s.instanceCount == k) (L.map Prod.fst) =
          List.filter (fun s => s.instanceCount == k) [⟨"a", 3⟩, ⟨"b", 1⟩, ⟨"c", 0⟩]) ∧
      (∀ i : Nat, i < L.length →
        L[i]? = some ((L.map Prod.fst)[i]?.getD ⟨"", 0⟩,
          (((10 - (([⟨"a", 3⟩, ⟨"b", 1⟩, ⟨"c", 0⟩] : List Subnet).map Subnet.instanceCount).sum) /
              ([⟨"a", 3⟩, ⟨"b", 1⟩, ⟨"c", 0⟩] : List Subnet).length : Nat) : Int) -
            (((L.map Prod.fst)[i]?.getD ⟨"", 0⟩).instanceCount : Int) +
            if i < (10 - (([⟨"a", 3⟩, ⟨"b", 1⟩, ⟨"c", 0⟩] : List Subnet).map Subnet.instanceCount).sum) %
              ([⟨"a", 3⟩, ⟨"b", 1⟩, ⟨"c", 0⟩] : List Subnet).length
            then 1 else 0)) :=
  claim_C6_order_and_remainder 10 [⟨"a", 3⟩, ⟨"b", 1⟩, ⟨"c", 0⟩] (by decide)

/-- Whether an embedded Python computation raised an exception. -/
def raised {α : Type} : Except String α → Bool
  | .error _ => true
  | .ok _ => false

/-- C3, counterexample: with a valid ami mapping and an empty resolved
subnet list, `instance_role` returns normally after logging a warning and
skipping the role; no exception of any kind is raised, so the step does not
signal a configuration error. -/
theorem claim_C3_counterexample :
    instance_role [("web_ami", [("us-east-1", "ami-123")])] "us-east-1"
        (fun _ => none) "web" "web_ami" [] 5 =
      .ok ([noSubnetsWarning "web"], .skippedNoSubnets) ∧
    raised (instance_role [("web_ami", [("us-east-1", "ami-123")])] "us-east-1"
        (fun _ => none) "web" "web_ami" [] 5) = false := by
  exact ⟨rfl, rfl⟩

/-- C3, amended: for every role whose subnet list resolves to the empty
list (and whose ami mapping is present, which is checked first), the step
logs the warning `no subnets found for role: ...` and returns early,
skipping the role without raising. -/
theorem claim_C3_empty_subnets_warn_and_skip
    (amis : List (String × List (String × String))) (regionName : String)
    (getSubnet : String → Option Subnet) (roleName amiKey : String)
    (desiredCount : Nat) (regionMap : List (String × String)) (ami : String)
    (h1 : amis.lookup amiKey = some regionMap)
    (h2 : regionMap.lookup regionName = some ami) :
    instance_role amis regionName getSubnet roleName amiKey [] desiredCount =
      .ok ([noSubnetsWarning roleName], .skippedNoSubnets) := by
  simp [instance_role, h1, h2]

/-- Witness for the amended C3 at a concrete ami table and role. -/
theorem claim_C3_witness :
    instance_role [("db_ami", [("eu-west-1", "ami-9")])] "eu-west-1"
        (fun _ => none) "db" "db_ami" [] 3 =
      .ok ([noSubnetsWarning "db"], .skippedNoSubnets) :=
  claim_C3_empty_subnets_warn_and_skip
    [("db_ami", [("eu-west-1", "ami-9")])] "eu-west-1" (fun _ => none) "db" "db_ami" 3
    [("eu-west-1", "ami-9")] "ami-9" rfl rfl

/-- C5: a rule whose source is found in the group lookup yields a
permission referencing that group by provider id (`UserIdGroupPairs`), and
a rule whose source is not found carries the source string literally as a
CIDR (`IpRanges`); protocol and expanded port range are set either way. -/
theorem claim_C5_source_group_or_cidr (lookup : String → Option SecurityGroup)
    (portRange : String → String → Int × Int) (rule : Rule) :
    (lookup rule.source = none →
      resolveRule lookup portRange rule =
        { ipProtocol := rule.protocol,
          fromPort := (portRange rule.portSpec rule.protocol).1,
          toPort := (portRange rule.portSpec rule.protocol).2,
          ipRanges := [rule.source], userIdGroupPairs := [] }) ∧
    (∀ sg : SecurityGroup, lookup rule.source = some sg →
      resolveRule lookup portRange rule =
        { ipProtocol := rule.protocol,
          fromPort := (portRange rule.portSpec rule.protocol).1,
          toPort := (portRange rule.portSpec rule.protocol).2,
          ipRanges := [], userIdGroupPairs := [sg.id] }) := by
  constructor
  · intro hnone
    simp [resolveRule, hnone]
  · intro sg hsg
    simp [resolveRule, hsg]

/-- Witness for C5 at two example rules: a CIDR source against
an empty lookup on ports 443-443, and a group source found as `web`. -/
theorem claim_C5_witness :
    resolveRule (fun _ => none) (fun _ _ => (443, 443)) ⟨"10.0.0.0/8", "tcp", "443"⟩ =
      { ipProtocol := "tcp", fromPort := 443, toPort := 443,
        ipRanges := ["10.0.0.0/8"], userIdGroupPairs := [] } ∧
    resolveRule (fun s => if s == "web" then some ⟨"sg-111"⟩ else none)
        (fun _ _ => (80, 80)) ⟨"web", "tcp", "80"⟩ =
      { ipProtocol := "tcp", fromPort := 80, toPort := 80,
        ipRanges := [], userIdGroupPairs := ["sg-111"] } :=
  ⟨(claim_C5_source_group_or_cidr (fun _ => none) (fun _ _ => (443, 443))
      ⟨"10.0.0.0/8", "tcp", "443"⟩).1 rfl,
   (claim_C5_source_group_or_cidr (fun s => if s == "web" then some ⟨"sg-111"⟩ else none)
      (fun _ _ => (80, 80)) ⟨"web", "tcp", "80"⟩).2 ⟨"sg-111"⟩ rfl⟩

/-- The accumulated permissions list is the map of the pure resolver over
the rules of the group. -/
lemma resolvePermissions_eq_map (lookup : String → Option SecurityGroup)
    (portRange : String → String → Int × Int) (rules : List Rule) :
    resolvePermissions lookup portRange rules = rules.map (resolveRule lookup portRange) := by
  induction rules with
  | nil => rfl
  | cons r rest ih => simp [resolvePermissions, ih]

/-- C7: when every configured group resolves, `security_group_rules`
issues exactly one `authorize_ingress` call per configured group, in config
order, and the `i`-th call carries the entire batch of resolved permissions
for the rules of the `i`-th group — never one call per rule. -/
theorem claim_C7_one_batched_call_per_group (lookup : String → Option SecurityGroup)
    (portRange : String → String → Int × Int) (cfg : List (String × List Rule))
    (hres : ∀ e ∈ cfg, (lookup e.1).isSome) :
    ∃ tr : List ProviderCall,
      security_group_rules lookup portRange cfg = .ok tr ∧
      tr.length = cfg.length ∧
      ∀ i : Nat, i < cfg.length →
        ∃ sg : SecurityGroup,
          lookup (cfg[i]?.getD ("", [])).1 = some sg ∧
          tr[i]? = some (.authorizeIngress sg.id
            ((cfg[i]?.getD ("", [])).2.map (resolveRule lookup portRange))) := by
  induction cfg with
  | nil => exact ⟨[], rfl, rfl, fun i hi => absurd hi (Nat.not_lt_zero i)⟩
  | cons head rest ih =>
    obtain ⟨sgName, rules⟩ := head
    have hhead : (lookup sgName).isSome := hres _ (List.mem_cons_self _ _)
    obtain ⟨sg, hsg⟩ := Option.isSome_iff_exists.mp hhead
    obtain ⟨tr, htrace, hlen, hidx⟩ :=
      ih (fun e he => hres e (List.mem_cons_of_mem _ he))
    refine ⟨.authorizeIngress sg.id (resolvePermissions lookup portRange rules) :: tr,
      ?_, ?_, ?_⟩
    · simp only [security_group_rules, hsg, htrace]
    · simp [hlen]
    · intro i hi
      cases i with
      | zero =>
        exact ⟨sg, by simpa using hsg, by simp [resolvePermissions_eq_map]⟩
      | succ j =>
        have hj : j < rest.length := Nat.lt_of_succ_lt_succ hi
        obtain ⟨sg2, hsg2, htr2⟩ := hidx j hj
        exact ⟨sg2, by simpa using hsg2, by simpa using htr2⟩

/-- Witness for C7: two groups with two and one rules respectively yield
exactly two authorize calls, each carrying the whole batch of its group. -/
theorem claim_C7_witness :
    ∃ tr : List ProviderCall,
      security_group_rules
          (fun s => if s == "web" then some ⟨"sg-1"⟩ else
            if s == "db" then some ⟨"sg-2"⟩ else none)
          (fun _ _ => (443, 443))
          [("web", [⟨"10.0.0.0/8", "tcp", "443"⟩, ⟨"db", "tcp", "443"⟩]),
           ("db", [⟨"web", "tcp", "443"⟩])] = .ok tr ∧
      tr.length =
        ([("web", [⟨"10.0.0.0/8", "tcp", "443"⟩, ⟨"db", "tcp", "443"⟩]),
          ("db", [⟨"web", "tcp", "443"⟩])] : List (String × List Rule)).length ∧
      ∀ i : Nat,
        i < ([("web", [⟨"10.0.0.0/8", "tcp", "443"⟩, ⟨"db", "tcp", "443"⟩]),
          ("db", [⟨"web", "tcp", "443"⟩])] : List (String × List Rule)).length →
        ∃ sg : SecurityGroup,
          (fun s => if s == "web" then some ⟨"sg-1"⟩ else
            if s == "db" then some ⟨"sg-2"⟩ else none)
            (([("web", [⟨"10.0.0.0/8", "tcp", "443"⟩, ⟨"db", "tcp", "443"⟩]),
              ("db", [⟨"web", "tcp", "443"⟩])] : List (String × List Rule))[i]?.getD ("", [])).1
            = some sg ∧
          tr[i]? = some (.authorizeIngress sg.id
            ((([("web", [⟨"10.0.0.0/8", "tcp", "443"⟩, ⟨"db", "tcp", "443"⟩]),
              ("db", [⟨"web", "tcp", "443"⟩])] : List (String × List Rule))[i]?.getD ("", [])).2.map
              (resolveRule
                (fun s => if s == "web" then some ⟨"sg-1"⟩ else
                  if s == "db" then some ⟨"sg-2"⟩ else none)
                (fun _ _ => (443, 443))))) :=
  claim_C7_one_batched_call_per_group
    (fun s => if s == "web" then some ⟨"sg-1"⟩ else
      if s == "db" then some ⟨"sg-2"⟩ else none)
    (fun _ _ => (443, 443))
    [("web", [⟨"10.0.0.0/8", "tcp", "443"⟩, ⟨"db", "tcp", "443"⟩]),
     ("db", [⟨"web", "tcp", "443"⟩])]
    (by decide)

/-- C2, counterexample: the subnets step of the build takes no state view
at all (the source never calls a lookup for existing subnets), so even in
an environment where the declared subnet already exists under its name tag
the step issues a `create_subnet` call: one subnet config entry produces
one creation call, not zero. -/
theorem claim_C2_counterexample :
    subnets_step (fun _ _ => ["10.0.0.0/30"]) "10.0.0.0/24" "vpc1" "us-east-1"
        ["us-east-1a"] [("web-1", ⟨1, some "a", ""⟩)] =
      .ok [BuildCall.createSubnet "10.0.0.0/30" "us-east-1a",
        BuildCall.updateTags "vpc1-web-1"] ∧
    creationCount [BuildCall.createSubnet "10.0.0.0/30" "us-east-1a",
      BuildCall.updateTags "vpc1-web-1"] = 1 :=
  ⟨rfl, rfl⟩

/-- When every configured route-table long name is found in the view, the
route-table step issues no calls at all. -/
lemma route_tables_all_found (view : String → Option Unit) (vpcName : String) :
    ∀ cfg : List (String × RouteTableData),
      (∀ e ∈ cfg, (view (vpcName ++ "-" ++ e.1)).isSome) →
      route_tables view vpcName cfg = [] := by
  intro cfg
  induction cfg with
  | nil => intro _; rfl
  | cons head rest ih =>
    intro hfound
    obtain ⟨name, data⟩ := head
    have hh : (view (vpcName ++ "-" ++ name)).isSome :=
      hfound ⟨name, data⟩ (List.mem_cons_self _ _)
    obtain ⟨u, hu⟩ := Option.isSome_iff_exists.mp hh
    simp only [route_tables, hu]
    exact ih fun e he => hfound e (List.mem_cons_of_mem _ he)

/-- Every successful pass of the subnet creation loop issues exactly one
`create_subnet` per config entry. -/
lemma subnetsLoop_creationCount (vpcName regionName : String) (azones : List String) :
    ∀ (cfg : List (String × SubnetData)) (buckets : List (Nat × List String))
      (calls : List BuildCall),
      subnetsLoop vpcName regionName azones buckets cfg = .ok calls →
      creationCount calls = cfg.length := by
  intro cfg
  induction cfg with
  | nil =>
    intro buckets calls h
    simp only [subnetsLoop] at h
    injection h with h
    subst h
    rfl
  | cons head rest ih =>
    intro buckets calls h
    obtain ⟨name, sn⟩ := head
    simp only [subnetsLoop] at h
    cases haz : azChoice regionName azones name sn.availabilityZone with
    | error e => simp only [haz] at h; exact Except.noConfusion h
    | ok azName =>
      simp only [haz] at h
      cases hpop : popBucket buckets sn.size with
      | error e => simp only [hpop] at h; exact Except.noConfusion h
      | ok pr =>
        obtain ⟨cidr, buckets2⟩ := pr
        simp only [hpop] at h
        cases hrec : subnetsLoop vpcName regionName azones buckets2 rest with
        | error e => simp only [hrec] at h; exact Except.noConfusion h
        | ok calls2 =>
          simp only [hrec] at h
          injection h with h
          subst h
          have hr := ih buckets2 calls2 hrec
          simp only [creationCount, List.countP_cons] at hr ⊢
          simp [hr]

/-- C2, amended: the route-table step queries the view by logical name and
is a no-op for every found name (zero calls when everything is found), but
the subnets step never consults existing state: every successful run of it
performs exactly one subnet creation per declared subnet, so a full re-run
against a complete environment still performs creation calls. -/
theorem claim_C2_route_tables_idempotent_subnets_not :
    (∀ (view : String → Option Unit) (vpcName : String)
        (cfg : List (String × RouteTableData)),
      (∀ e ∈ cfg, (view (vpcName ++ "-" ++ e.1)).isSome) →
      route_tables view vpcName cfg = []) ∧
    (∀ (allocateF : String → List Nat → List String)
        (cidrBlock vpcName regionName : String) (azones : List String)
        (cfg : List (String × SubnetData)) (calls : List BuildCall),
      subnets_step allocateF cidrBlock vpcName regionName azones cfg = .ok calls →
      creationCount calls = cfg.length) := by
  constructor
  · exact fun view vpcName cfg h => route_tables_all_found view vpcName cfg h
  · intro allocateF cidrBlock vpcName regionName azones cfg calls h
    exact subnetsLoop_creationCount vpcName regionName azones cfg _ calls h

/-- Witness for the amended C2: a found route table produces no calls; the
one-subnet config from the counterexample produces one creation. -/
theorem claim_C2_witness :
    route_tables (fun _ => some ()) "vpc1" [("public", ⟨false⟩)] = [] ∧
    creationCount [BuildCall.createSubnet "10.0.0.0/30" "us-east-1a",
      BuildCall.updateTags "vpc1-web-1"] =
      ([("web-1", (⟨1, some "a", ""⟩ : SubnetData))] : List (String × SubnetData)).length :=
  ⟨claim_C2_route_tables_idempotent_subnets_not.1 (fun _ => some ()) "vpc1"
      [("public", ⟨false⟩)] (by intro e _; rfl),
   claim_C2_route_tables_idempotent_subnets_not.2 (fun _ _ => ["10.0.0.0/30"])
      "10.0.0.0/24" "vpc1" "us-east-1" ["us-east-1a"] [("web-1", ⟨1, some "a", ""⟩)]
      [BuildCall.createSubnet "10.0.0.0/30" "us-east-1a",
        BuildCall.updateTags "vpc1-web-1"] rfl⟩

/-- C8: when any of the sequential build steps raises, the run aborts at
that step (no later step runs: the surviving logs are exactly those of the
successful prefix and the failing step) and `apply_all` surfaces the very
same exception after appending the four diagnostic messages. -/
theorem claim_C8_abort_and_reraise {E : Type} (describe : E → String) (tb : String)
    (steps : List (StepResult E)) (lock : StepResult E) (e : E)
    (herr : (runSteps steps).outcome = .error e) :
    apply_all describe tb (underscoreApplyAll steps lock) =
      ⟨(runSteps steps).logs ++ failureLogs describe tb e, .error e⟩ ∧
    (∀ (pre : List (StepResult E)) (s : StepResult E) (post : List (StepResult E)) (e2 : E),
      (∀ t ∈ pre, t.outcome = .ok ()) → s.outcome = .error e2 →
      runSteps (pre ++ s :: post) =
        ⟨(pre.map StepResult.logs).flatten ++ s.logs, .error e2⟩) := by
  constructor
  · have h1 : underscoreApplyAll steps lock = ⟨(runSteps steps).logs, .error e⟩ := by
      simp only [underscoreApplyAll, herr]
    rw [h1]
    rfl
  · intro pre
    induction pre with
    | nil =>
      intro s post e2 _ hs
      simp [runSteps, hs]
    | cons t rest ih =>
      intro s post e2 hpre hs
      have ht : t.outcome = .ok () := hpre t (List.mem_cons_self _ _)
      have ihr := ih s post e2 (fun u hu => hpre u (List.mem_cons_of_mem _ hu)) hs
      simp only [List.cons_append, runSteps, ht, List.append_eq]
      rw [ihr]
      simp [List.append_assoc]

/-- Witness for C8: one successful step followed by a failing one; the
failure is re-raised intact with the diagnostics appended, and the
abort-at-first-failure equation holds at a concrete split. -/
theorem claim_C8_witness :
    apply_all (fun s => s) "traceback-text"
        (underscoreApplyAll
          ([⟨[⟨"creating route_table (vpc1-public)", LogLevel.info⟩], Except.ok ()⟩,
            ⟨[], Except.error "ProviderError"⟩] : List (StepResult String))
          ⟨[], Except.ok ()⟩) =
      ⟨(runSteps
          ([⟨[⟨"creating route_table (vpc1-public)", LogLevel.info⟩], Except.ok ()⟩,
            ⟨[], Except.error "ProviderError"⟩] : List (StepResult String))).logs ++
        failureLogs (fun s => s) "traceback-text" "ProviderError", Except.error "ProviderError"⟩ ∧
    (∀ (pre : List (StepResult String)) (s : StepResult String)
        (post : List (StepResult String)) (e2 : String),
      (∀ t ∈ pre, t.outcome = .ok ()) → s.outcome = .error e2 →
      runSteps (pre ++ s :: post) =
        ⟨(pre.map StepResult.logs).flatten ++ s.logs, .error e2⟩) :=
  claim_C8_abort_and_reraise (fun s => s) "traceback-text"
    ([⟨[⟨"creating route_table (vpc1-public)", LogLevel.info⟩], Except.ok ()⟩,
      ⟨[], Except.error "ProviderError"⟩] : List (StepResult String))
    ⟨[], Except.ok ()⟩ "ProviderError" rfl

/-- C9: when every build step succeeds and the final instance-locking
attempt raises, the run still returns normally: the bare `except` logs the
warning after the logs of the lock attempt, nothing is rolled back (the logs
of every prior step survive unchanged), and `apply_all` adds no failure
diagnostics. -/
theorem claim_C9_lock_failure_nonfatal {E : Type} (describe : E → String) (tb : String)
    (steps : List (StepResult E)) (lock : StepResult E) (e : E)
    (hok : (runSteps steps).outcome = .ok ()) (hlock : lock.outcome = .error e) :
    apply_all describe tb (underscoreApplyAll steps lock) =
      ⟨(runSteps steps).logs ++ [lockMsg] ++ lock.logs ++ [lockWarn], .ok ()⟩ := by
  have h1 : underscoreApplyAll steps lock =
      ⟨(runSteps steps).logs ++ [lockMsg] ++ lock.logs ++ [lockWarn], .ok ()⟩ := by
    simp only [underscoreApplyAll, hok, hlock]
  rw [h1]
  rfl

/-- Witness for C9: a successful step plus a failing lock still yields a
normal return carrying the warning. -/
theorem claim_C9_witness :
    apply_all (fun s => s) "traceback-text"
        (underscoreApplyAll
          ([⟨[⟨"creating route_table (vpc1-public)", LogLevel.info⟩], Except.ok ()⟩] :
            List (StepResult String))
          ⟨[], Except.error "DryRunOperation"⟩) =
      ⟨(runSteps
          ([⟨[⟨"creating route_table (vpc1-public)", LogLevel.info⟩], Except.ok ()⟩] :
            List (StepResult String))).logs ++
        [lockMsg] ++ [] ++ [lockWarn], Except.ok ()⟩ :=
  claim_C9_lock_failure_nonfatal (fun s => s) "traceback-text"
    ([⟨[⟨"creating route_table (vpc1-public)", LogLevel.info⟩], Except.ok ()⟩] :
      List (StepResult String))
    ⟨[], Except.error "DryRunOperation"⟩ "DryRunOperation" rfl rfl

/-- C10: for any regex matcher and any Name tag state, `shortname` and
`role` never produce a string: an absent Name tag yields `None`, a
non-matching tag raises the invalid-name exception, and a matching tag
falls off the end of `_regex_hostname` (no `return` after the match
succeeds), discarding the match and yielding `None`. -/
theorem claim_C10_shortname_role_never_string (reMatch : String → String → Bool)
    (hostname : Option String) :
    (∀ s : String, shortname reMatch hostname ≠ .ok (some s)) ∧
    (∀ s : String, role reMatch hostname ≠ .ok (some s)) ∧
    (hostname = none →
      shortname reMatch hostname = .ok none ∧ role reMatch hostname = .ok none) ∧
    (∀ hn : String, hostname = some hn →
      (reMatch shortnamePattern hn = false →
        shortname reMatch hostname = .error (invalidNameMsg hn)) ∧
      (reMatch shortnamePattern hn = true → shortname reMatch hostname = .ok none) ∧
      (reMatch rolePattern hn = false →
        role reMatch hostname = .error (invalidNameMsg hn)) ∧
      (reMatch rolePattern hn = true → role reMatch hostname = .ok none)) := by
  cases hostname with
  | none =>
    refine ⟨?_, ?_, fun _ => ⟨rfl, rfl⟩, ?_⟩
    · intro s h
      exact Option.noConfusion (Except.ok.inj h)
    · intro s h
      exact Option.noConfusion (Except.ok.inj h)
    · intro hn h
      exact Option.noConfusion h
  | some hn =>
    refine ⟨?_, ?_, fun h => Option.noConfusion h, ?_⟩
    · intro s h
      by_cases hm : reMatch shortnamePattern hn = true
      · rw [show shortname reMatch (some hn) = .ok none by
          simp [shortname, regexHostname, hm]] at h
        exact Option.noConfusion (Except.ok.inj h)
      · rw [show shortname reMatch (some hn) = .error (invalidNameMsg hn) by
          simp [shortname, regexHostname, hm]] at h
        exact Except.noConfusion h
    · intro s h
      by_cases hm : reMatch rolePattern hn = true
      · rw [show role reMatch (some hn) = .ok none by
          simp [role, regexHostname, hm]] at h
        exact Option.noConfusion (Except.ok.inj h)
      · rw [show role reMatch (some hn) = .error (invalidNameMsg hn) by
          simp [role, regexHostname, hm]] at h
        exact Except.noConfusion h
    · intro hn2 heq
      injection heq with heq
      subst heq
      refine ⟨?_, ?_, ?_, ?_⟩
      · intro hm; simp [shortname, regexHostname, hm]
      · intro hm; simp [shortname, regexHostname, hm]
      · intro hm; simp [role, regexHostname, hm]
      · intro hm; simp [role, regexHostname, hm]

/-- Witness for C10: with a matcher accepting exactly `vpc1-web01`, a
matching tag yields `None` from `shortname`, a non-matching tag makes
`role` raise, and an absent tag yields `None`. -/
theorem claim_C10_witness :
    shortname (fun _ s => s == "vpc1-web01") (some "vpc1-web01") = .ok none ∧
    role (fun _ s => s == "vpc1-web01") (some "badname") =
      .error (invalidNameMsg "badname") ∧
    shortname (fun _ s => s == "vpc1-web01") none = .ok none :=
  ⟨((claim_C10_shortname_role_never_string (fun _ s => s == "vpc1-web01")
      (some "vpc1-web01")).2.2.2 "vpc1-web01" rfl).2.1 (by decide),
   ((claim_C10_shortname_role_never_string (fun _ s => s == "vpc1-web01")
      (some "badname")).2.2.2 "badname" rfl).2.2.1 (by decide),
   ((claim_C10_shortname_role_never_string (fun _ s => s == "vpc1-web01")
      none).2.2.1 rfl).1⟩

end Botoform
